import Mathlib

/-!
Verification of the hand-particles engine core against its specification.

The TypeScript source is shallowly embedded: JS numbers are modelled as real
numbers, mutable class fields as explicit state records, and per-frame mutation
as state-passing functions.  Each embedded definition mirrors one source
function and is named after it.
-/

set_option maxHeartbeats 1000000

noncomputable section

namespace HPE

/-! ## src/utils/math.ts -/

/-- Embedding of `clamp` from src/utils/math.ts: `Math.max(a, Math.min(b, v))`. -/
def clamp (v a b : ℝ) : ℝ := max a (min b v)

/-- Embedding of `clamp01` from src/utils/math.ts: `Math.max(0, Math.min(1, v))`. -/
def clamp01 (v : ℝ) : ℝ := max 0 (min 1 v)

/-- Embedding of `lerp` from src/utils/math.ts: `a + (b - a) * t`. -/
def lerp (a b t : ℝ) : ℝ := a + (b - a) * t

/-- Model of JavaScript `Math.hypot(x, y)`. -/
def hypot (x y : ℝ) : ℝ := Real.sqrt (x * x + y * y)

/-- Model of JavaScript `Math.atan2(y, x)` (only the payload of ROTATE events
uses it; no claim inspects the value). -/
def atan2 (y x : ℝ) : ℝ :=
  if 0 < x then Real.arctan (y / x)
  else if x < 0 ∧ 0 ≤ y then Real.arctan (y / x) + Real.pi
  else if x < 0 then Real.arctan (y / x) - Real.pi
  else if 0 < y then Real.pi / 2
  else if y < 0 then -(Real.pi / 2)
  else 0

/-- Model of JavaScript `fract`-style helper from ParticleSystem.ts:
`x - Math.floor(x)`. -/
def fract (x : ℝ) : ℝ := x - ⌊x⌋

/-! ## Shared types (ShapeTypes.ts, InteractionTypes.ts, GestureTypes) -/

/-- Embedding of `ShapeName` from ShapeTypes.ts. -/
inductive ShapeName where
  | SPHERE
  | CUBE
  | TORUSKNOT
  | WAVE
  | RING
  | HEART
  | TEXT
  deriving DecidableEq

/-- Embedding of the mode union `"NONE" | "SINGLE" | "DUAL"`. -/
inductive Mode where
  | NONE
  | SINGLE
  | DUAL
  deriving DecidableEq

/-- Embedding of the tagged union `InteractionEvent` from InteractionTypes.ts. -/
inductive InteractionEvent where
  | MODE (mode : Mode)
  | MOVE (nx ny : ℝ)
  | ZOOM (value : ℝ)
  | ROTATE (angle : ℝ)
  | SPREAD (value : ℝ)
  | SHAPE (name : ShapeName)
  | SCATTER
  | CONVERGE
  | IDLE (stillness : ℝ)
  | GESTURE_LABEL (label : String)
  | SHAKE_ENERGY (value : ℝ)

/-- One hand landmark point (MediaPipe triple). -/
structure Pt3 where
  x : ℝ
  y : ℝ
  z : ℝ

/-- Embedding of `HandFrame` from the input types: 21 landmark triples, a palm
center, size and pinch scalars, a timestamp, an optional handedness tag. -/
structure HandFrame where
  landmarks : List Pt3
  centerX : ℝ
  centerY : ℝ
  size : ℝ
  pinch : ℝ
  t : ℝ
  handedness : Option String

/-! ## src/engine/interaction/InteractionCore.ts -/

/-- Embedding of `InteractionState` from InteractionCore.ts. -/
structure InteractionState where
  mode : Mode
  panX : ℝ
  panY : ℝ
  zoom : ℝ
  rotation : ℝ
  spread : ℝ
  scatter : Bool
  converge : Bool
  stillness : ℝ
  shape : ShapeName
  gestureLabel : String
  shakeEnergy : ℝ

/-- Initial field values of `InteractionCore.state` (InteractionCore.ts lines 41-54). -/
def initialState : InteractionState :=
  { mode := Mode.NONE
    panX := 0
    panY := 0
    zoom := 1
    rotation := 0
    spread := 0.25
    scatter := false
    converge := false
    stillness := 1
    shape := ShapeName.SPHERE
    gestureLabel := "NONE"
    shakeEnergy := 0 }

/-- One iteration of the `switch` in `InteractionCore.update` (lines 65-115). -/
def applyEvent (s : InteractionState) (e : InteractionEvent) : InteractionState :=
  match e with
  | InteractionEvent.MODE m => { s with mode := m }
  | InteractionEvent.MOVE nx ny =>
      { s with panX := (nx - 0.5) * 3.0, panY := -(ny - 0.5) * 1.9 }
  | InteractionEvent.ZOOM v => { s with zoom := v }
  | InteractionEvent.ROTATE a => { s with rotation := a }
  | InteractionEvent.SPREAD v => { s with spread := clamp01 v }
  | InteractionEvent.SHAPE n => { s with shape := n }
  | InteractionEvent.SCATTER => { s with scatter := true }
  | InteractionEvent.CONVERGE => { s with converge := true }
  | InteractionEvent.IDLE v => { s with stillness := clamp01 v }
  | InteractionEvent.GESTURE_LABEL l => { s with gestureLabel := l }
  | InteractionEvent.SHAKE_ENERGY v => { s with shakeEnergy := v }

/-- Embedding of `InteractionCore.update` (lines 60-116): reset both pulse
fields, then fold the batch in order through the event switch. -/
def coreUpdate (s : InteractionState) (events : List InteractionEvent) : InteractionState :=
  events.foldl applyEvent { s with scatter := false, converge := false }

/-- Recognizer for SCATTER events. -/
def isScatterEv : InteractionEvent → Bool
  | InteractionEvent.SCATTER => true
  | _ => false

/-- Recognizer for CONVERGE events. -/
def isConvergeEv : InteractionEvent → Bool
  | InteractionEvent.CONVERGE => true
  | _ => false

/-- Recognizer for IDLE events. -/
def isIdleEv : InteractionEvent → Bool
  | InteractionEvent.IDLE _ => true
  | _ => false

/-- Recognizer for SHAKE_ENERGY events. -/
def isShakeEnergyEv : InteractionEvent → Bool
  | InteractionEvent.SHAKE_ENERGY _ => true
  | _ => false

theorem applyEvent_scatter (s : InteractionState) (e : InteractionEvent) :
    (applyEvent s e).scatter = (s.scatter || isScatterEv e) := by
  cases e <;> simp [applyEvent, isScatterEv]

theorem applyEvent_converge (s : InteractionState) (e : InteractionEvent) :
    (applyEvent s e).converge = (s.converge || isConvergeEv e) := by
  cases e <;> simp [applyEvent, isConvergeEv]

theorem foldl_applyEvent_scatter (es : List InteractionEvent) (s : InteractionState) :
    (es.foldl applyEvent s).scatter = (s.scatter || es.any isScatterEv) := by
  induction es generalizing s with
  | nil => simp
  | cons e es ih => simp [List.foldl_cons, ih, applyEvent_scatter, Bool.or_assoc]

theorem foldl_applyEvent_converge (es : List InteractionEvent) (s : InteractionState) :
    (es.foldl applyEvent s).converge = (s.converge || es.any isConvergeEv) := by
  induction es generalizing s with
  | nil => simp
  | cons e es ih => simp [List.foldl_cons, ih, applyEvent_converge, Bool.or_assoc]

/-- C1: after `InteractionCore.update(events)`, `state.scatter` is true iff the
batch contains a SCATTER event and `state.converge` is true iff it contains a
CONVERGE event; an empty batch leaves both false regardless of the state before
the call. -/
theorem coreUpdate_pulse_iff (s : InteractionState) (events : List InteractionEvent) :
    ((coreUpdate s events).scatter = true ↔ events.any isScatterEv = true) ∧
    ((coreUpdate s events).converge = true ↔ events.any isConvergeEv = true) := by
  unfold coreUpdate
  rw [foldl_applyEvent_scatter, foldl_applyEvent_converge]
  simp

theorem clamp01_mem (v : ℝ) : 0 ≤ clamp01 v ∧ clamp01 v ≤ 1 := by
  unfold clamp01
  constructor
  · exact le_max_left 0 _
  · exact max_le (by norm_num) (min_le_left 1 v)

theorem applyEvent_spread_mem (s : InteractionState) (e : InteractionEvent)
    (h : 0 ≤ s.spread ∧ s.spread ≤ 1) :
    0 ≤ (applyEvent s e).spread ∧ (applyEvent s e).spread ≤ 1 := by
  cases e <;> simp [applyEvent] <;> first
    | exact h
    | exact clamp01_mem _

theorem applyEvent_stillness_mem (s : InteractionState) (e : InteractionEvent)
    (h : 0 ≤ s.stillness ∧ s.stillness ≤ 1) :
    0 ≤ (applyEvent s e).stillness ∧ (applyEvent s e).stillness ≤ 1 := by
  cases e <;> simp [applyEvent] <;> first
    | exact h
    | exact clamp01_mem _

theorem coreUpdate_mem (s : InteractionState) (events : List InteractionEvent)
    (hsp : 0 ≤ s.spread ∧ s.spread ≤ 1) (hst : 0 ≤ s.stillness ∧ s.stillness ≤ 1) :
    (0 ≤ (coreUpdate s events).spread ∧ (coreUpdate s events).spread ≤ 1) ∧
    (0 ≤ (coreUpdate s events).stillness ∧ (coreUpdate s events).stillness ≤ 1) := by
  unfold coreUpdate
  set s0 : InteractionState := { s with scatter := false, converge := false } with hs0
  have hsp0 : 0 ≤ s0.spread ∧ s0.spread ≤ 1 := hsp
  have hst0 : 0 ≤ s0.stillness ∧ s0.stillness ≤ 1 := hst
  clear_value s0
  clear hs0 hsp hst
  induction events generalizing s0 with
  | nil => exact ⟨hsp0, hst0⟩
  | cons e es ih =>
      exact ih (applyEvent s0 e) (applyEvent_spread_mem s0 e hsp0)
        (applyEvent_stillness_mem s0 e hst0)

/-- Sequence of `update` calls on one `InteractionCore` instance starting from
its initial state. -/
def runCore (batches : List (List InteractionEvent)) : InteractionState :=
  batches.foldl coreUpdate initialState

/-- C8: after every call to `InteractionCore.update`, `state.spread` and
`state.stillness` lie in [0,1], for arbitrary (arbitrarily large or negative)
SPREAD and IDLE payloads, starting from the in-range initial values 0.25 and 1. -/
theorem runCore_spread_stillness_unit (batches : List (List InteractionEvent)) :
    (0 ≤ (runCore batches).spread ∧ (runCore batches).spread ≤ 1) ∧
    (0 ≤ (runCore batches).stillness ∧ (runCore batches).stillness ≤ 1) := by
  unfold runCore
  have hinit : (0 ≤ initialState.spread ∧ initialState.spread ≤ 1) ∧
      (0 ≤ initialState.stillness ∧ initialState.stillness ≤ 1) := by
    constructor <;> constructor <;> norm_num [initialState]
  set s0 := initialState with hs0
  clear_value s0
  clear hs0
  induction batches generalizing s0 with
  | nil => exact hinit
  | cons b bs ih =>
      exact ih (coreUpdate s0 b) (coreUpdate_mem s0 b hinit.1 hinit.2)

/-! ## src/engine/gesture/GesturePlugin.ts and the concrete plugins -/

/-- Embedding of `GestureContext` (dt and time, both in seconds). -/
structure GestureContext where
  dt : ℝ
  time : ℝ

/-- Default hand frame used to model JS indexing defaults. -/
def defaultFrame : HandFrame :=
  { landmarks := [], centerX := 0, centerY := 0, size := 0, pinch := 0, t := 0,
    handedness := none }

/-- Embedding of `DualHandPlugin.update` (DualHandPlugin.ts lines 12-27):
requires at least two hands, emits MODE/ZOOM/ROTATE plus a CONVERGE pulse when
the inter-hand center distance is below 0.12 or a SCATTER pulse when it is
above 0.6. -/
def dualHandUpdate (frames : List HandFrame) (_ctx : GestureContext) :
    List InteractionEvent :=
  match frames with
  | a :: b :: _ =>
      let dx := a.centerX - b.centerX
      let dy := a.centerY - b.centerY
      let dist := hypot dx dy
      [InteractionEvent.MODE Mode.DUAL,
       InteractionEvent.ZOOM (0.6 + dist * 3),
       InteractionEvent.ROTATE (atan2 dy dx)] ++
      (if dist < 0.12 then [InteractionEvent.CONVERGE] else []) ++
      (if dist > 0.6 then [InteractionEvent.SCATTER] else [])
  | _ => []

/-- Embedding of `SingleHandMovePlugin.update`: exactly one hand emits
MODE=SINGLE, MOVE at the hand center, ZOOM = 0.8 + size. -/
def singleHandMoveUpdate (frames : List HandFrame) (_ctx : GestureContext) :
    List InteractionEvent :=
  match frames with
  | [h] =>
      [InteractionEvent.MODE Mode.SINGLE,
       InteractionEvent.MOVE h.centerX h.centerY,
       InteractionEvent.ZOOM (0.8 + h.size)]
  | _ => []

/-- Embedding of `PinchSpreadPlugin.update`: exactly one hand emits
SPREAD = clamp01(1 - pinch). -/
def pinchSpreadUpdate (frames : List HandFrame) (_ctx : GestureContext) :
    List InteractionEvent :=
  match frames with
  | [h] => [InteractionEvent.SPREAD (clamp01 (1 - h.pinch))]
  | _ => []

/-- Embedding of `GestureShapePlugin.update`: exactly one hand, pinch > 0.8
selects HEART, pinch < 0.2 selects WAVE, otherwise SPHERE. -/
def gestureShapeUpdate (frames : List HandFrame) (_ctx : GestureContext) :
    List InteractionEvent :=
  match frames with
  | [h] =>
      if h.pinch > 0.8 then [InteractionEvent.SHAPE ShapeName.HEART]
      else if h.pinch < 0.2 then [InteractionEvent.SHAPE ShapeName.WAVE]
      else [InteractionEvent.SHAPE ShapeName.SPHERE]
  | _ => []

/-- C7: for at least two hands, with d the Euclidean distance between the two
hand centers, `DualHandPlugin.update` emits CONVERGE iff d < 0.12 and SCATTER
iff d > 0.6, and never both together. -/
theorem dualHand_pulse_thresholds (a b : HandFrame) (rest : List HandFrame)
    (ctx : GestureContext) :
    ((dualHandUpdate (a :: b :: rest) ctx).any isConvergeEv = true ↔
      hypot (a.centerX - b.centerX) (a.centerY - b.centerY) < 0.12) ∧
    ((dualHandUpdate (a :: b :: rest) ctx).any isScatterEv = true ↔
      hypot (a.centerX - b.centerX) (a.centerY - b.centerY) > 0.6) ∧
    ¬((dualHandUpdate (a :: b :: rest) ctx).any isConvergeEv = true ∧
      (dualHandUpdate (a :: b :: rest) ctx).any isScatterEv = true) := by
  set d := hypot (a.centerX - b.centerX) (a.centerY - b.centerY) with hd
  have h1 : (dualHandUpdate (a :: b :: rest) ctx).any isConvergeEv = true ↔ d < 0.12 := by
    simp only [dualHandUpdate, ← hd]
    split_ifs with hc hs <;> simp_all [isConvergeEv, isScatterEv]
  have h2 : (dualHandUpdate (a :: b :: rest) ctx).any isScatterEv = true ↔ d > 0.6 := by
    simp only [dualHandUpdate, ← hd]
    split_ifs with hc hs <;> simp_all [isConvergeEv, isScatterEv]
  refine ⟨h1, h2, ?_⟩
  rintro ⟨hcv, hsc⟩
  have := h1.mp hcv
  have := h2.mp hsc
  linarith

/-! ## GestureLabelPlugin (src/unnamed/part_004 / part_005) -/

/-- Embedding of the `GestureName` label set. -/
inductive GestureName where
  | NONE
  | OPEN_PALM
  | FIST
  | V_SIGN
  | OK_SIGN
  | PINCH
  | DUAL_HANDS
  deriving DecidableEq

/-- String form of a gesture label, as carried by GESTURE_LABEL events. -/
def gestureNameStr : GestureName → String
  | GestureName.NONE => "NONE"
  | GestureName.OPEN_PALM => "OPEN_PALM"
  | GestureName.FIST => "FIST"
  | GestureName.V_SIGN => "V_SIGN"
  | GestureName.OK_SIGN => "OK_SIGN"
  | GestureName.PINCH => "PINCH"
  | GestureName.DUAL_HANDS => "DUAL_HANDS"

/-- Mutable fields of `GestureLabelPlugin`. -/
structure LabelState where
  lastGesture : GestureName
  candidate : GestureName
  holdFrames : ℕ
  pinchActive : Bool

/-- Initial `GestureLabelPlugin` field values. -/
def initLabelState : LabelState :=
  { lastGesture := GestureName.NONE, candidate := GestureName.NONE,
    holdFrames := 0, pinchActive := false }

/-- Embedding of `GestureLabelPlugin.checkPinch`: hysteresis gate, enter above
0.82, exit below 0.65; returns the updated `pinchActive`. -/
def checkPinch (active : Bool) (pinch : ℝ) : Bool :=
  if active then (if pinch < 0.65 then false else active)
  else (if pinch > 0.82 then true else active)

/-- Landmark y coordinate with JS-style default for out-of-range access. -/
def lmY (lm : List Pt3) (i : ℕ) : ℝ := (lm.getD i ⟨0, 0, 0⟩).y

/-- Landmark x coordinate with JS-style default for out-of-range access. -/
def lmX (lm : List Pt3) (i : ℕ) : ℝ := (lm.getD i ⟨0, 0, 0⟩).x

/-- Embedding of `GestureLabelPlugin.isFingerExtended`. -/
def isFingerExtended (lm : List Pt3) (pip dip tip : ℕ) : Prop :=
  lmY lm tip < lmY lm pip ∧ lmY lm dip < lmY lm pip

/-- Embedding of `GestureLabelPlugin.isThumbExtended`. -/
def isThumbExtended (lm : List Pt3) : Prop :=
  |lmX lm 4 - lmX lm 2| > 0.06

section
open Classical

/-- Embedding of `GestureLabelPlugin.classify`: returns the raw label together
with the updated `pinchActive` flag (the one field `classify` mutates). -/
def classify (s : LabelState) (h : HandFrame) : GestureName × Bool :=
  let pinch := h.pinch
  let pa := checkPinch s.pinchActive pinch
  if pa then (GestureName.PINCH, pa)
  else
    let lm := h.landmarks
    let extIndex := isFingerExtended lm 6 7 8
    let extMiddle := isFingerExtended lm 10 11 12
    let extRing := isFingerExtended lm 14 15 16
    let extPinky := isFingerExtended lm 18 19 20
    let extThumb := isThumbExtended lm
    let extCount : ℕ :=
      (if extIndex then 1 else 0) + (if extMiddle then 1 else 0) +
      (if extRing then 1 else 0) + (if extPinky then 1 else 0)
    if extIndex ∧ pinch > 0.28 ∧ 3 ≤ extCount then (GestureName.OK_SIGN, pa)
    else if extCount = 0 ∧ ¬extThumb then (GestureName.FIST, pa)
    else if extIndex ∧ extMiddle ∧ ¬extRing ∧ (extPinky → pinch < 0.2) then
      (GestureName.V_SIGN, pa)
    else if 3 ≤ extCount then (GestureName.OPEN_PALM, pa)
    else (s.lastGesture, pa)

end

/-- Embedding of `GestureLabelPlugin.update` (part_004 lines 130-187): zero
hands force NONE, two or more force DUAL_HANDS, otherwise the raw single-hand
classification is debounced by the 4-frame hold counter (HOLD_THRESHOLD = 4). -/
def labelUpdate (s : LabelState) (frames : List HandFrame) :
    List InteractionEvent × LabelState :=
  if frames.length = 0 then
    ([InteractionEvent.GESTURE_LABEL "NONE"],
     { s with lastGesture := GestureName.NONE })
  else if 2 ≤ frames.length then
    ([InteractionEvent.GESTURE_LABEL "DUAL_HANDS"],
     { s with lastGesture := GestureName.DUAL_HANDS })
  else
    let c := classify s (frames.getD 0 defaultFrame)
    let raw := c.1
    let s1 : LabelState := { s with pinchActive := c.2 }
    let s2 : LabelState :=
      if raw = s1.lastGesture then { s1 with candidate := raw, holdFrames := 0 }
      else if raw = s1.candidate then
        (if 4 ≤ s1.holdFrames + 1 then { s1 with lastGesture := raw, holdFrames := 0 }
         else { s1 with holdFrames := s1.holdFrames + 1 })
      else { s1 with candidate := raw, holdFrames := 1 }
    ([InteractionEvent.GESTURE_LABEL (gestureNameStr s2.lastGesture)], s2)

/-- State transition of one single-hand tick of the label plugin. -/
def labelStep (s : LabelState) (h : HandFrame) : LabelState :=
  (labelUpdate s [h]).2

/-- State of the label plugin after the first `i` single-hand ticks. -/
def labelStateAt (s0 : LabelState) (hs : List HandFrame) (i : ℕ) : LabelState :=
  (hs.take i).foldl labelStep s0

theorem labelStep_cases (s : LabelState) (h : HandFrame) :
    labelStep s h =
      (if (classify s h).1 = s.lastGesture then
        { s with
          pinchActive := (classify s h).2
          candidate := (classify s h).1
          holdFrames := 0 }
      else if (classify s h).1 = s.candidate then
        (if 4 ≤ s.holdFrames + 1 then
          { s with
            pinchActive := (classify s h).2
            lastGesture := (classify s h).1
            holdFrames := 0 }
         else { s with
           pinchActive := (classify s h).2
           holdFrames := s.holdFrames + 1 })
      else { s with
        pinchActive := (classify s h).2
        candidate := (classify s h).1
        holdFrames := 1 }) := by
  simp only [labelStep, labelUpdate, List.length_cons, List.length_nil]
  norm_num [List.getD_cons_zero]

theorem labelStateAt_succ (s0 : LabelState) (hs : List HandFrame) (i : ℕ)
    (hi : i < hs.length) :
    labelStateAt s0 hs (i + 1) =
      labelStep (labelStateAt s0 hs i) (hs.getD i defaultFrame) := by
  unfold labelStateAt
  rw [List.take_succ, List.foldl_append]
  rw [List.getElem?_eq_getElem hi]
  rw [List.getD_eq_getElem?_getD, List.getElem?_eq_getElem hi]
  rfl

theorem labelRun_hold (s0 : LabelState) (hs : List HandFrame) (r : GestureName)
    (hne : r ≠ s0.lastGesture) (hcand : r ≠ s0.candidate)
    (hraw : ∀ i, i < hs.length →
      (classify (labelStateAt s0 hs i) (hs.getD i defaultFrame)).1 = r) :
    ∀ k, k ≤ hs.length → k ≤ 3 →
      (labelStateAt s0 hs k).lastGesture = s0.lastGesture ∧
      (labelStateAt s0 hs k).candidate = (if k = 0 then s0.candidate else r) ∧
      (labelStateAt s0 hs k).holdFrames = (if k = 0 then s0.holdFrames else k) := by
  intro k
  induction k with
  | zero => intro _ _; simp [labelStateAt]
  | succ k ih =>
      intro hk1 hk2
      obtain ⟨hL, hC, hH⟩ := ih (Nat.le_of_succ_le hk1) (Nat.le_of_succ_le hk2)
      have hi : k < hs.length := hk1
      have hcls : ¬ (r = (labelStateAt s0 hs k).lastGesture) := by
        rw [hL]; exact hne
      rw [labelStateAt_succ s0 hs k hi, labelStep_cases, hraw k hi, if_neg hcls]
      rcases Nat.eq_zero_or_pos k with hk0 | hkpos
      · subst hk0
        have hcand0 : ¬ (r = (labelStateAt s0 hs 0).candidate) := by
          rw [hC]; simpa using hcand
        rw [if_neg hcand0]
        refine ⟨hL, ?_, ?_⟩ <;> simp
      · have hkne : ¬ k = 0 := Nat.pos_iff_ne_zero.mp hkpos
        have hcandk : r = (labelStateAt s0 hs k).candidate := by
          rw [hC, if_neg hkne]
        have hholdk : ¬ (4 ≤ (labelStateAt s0 hs k).holdFrames + 1) := by
          rw [hH, if_neg hkne]; omega
        rw [if_pos hcandk, if_neg hholdk]
        refine ⟨hL, ?_, ?_⟩
        · simpa [Nat.succ_ne_zero] using hcandk.symm
        · simp only [Nat.succ_ne_zero, if_neg, ite_false]
          rw [hH, if_neg hkne]

theorem labelRun_stable (s0 : LabelState) (hs : List HandFrame) (r : GestureName)
    (hraw : ∀ i, i < hs.length →
      (classify (labelStateAt s0 hs i) (hs.getD i defaultFrame)).1 = r) :
    ∀ m k, m ≤ k → k ≤ hs.length →
      (labelStateAt s0 hs m).lastGesture = r →
      (labelStateAt s0 hs k).lastGesture = r := by
  intro m k hmk
  induction k, hmk using Nat.le_induction with
  | base => intro _ h; exact h
  | succ n hmn ih =>
      intro hn1 hm
      have hn : n < hs.length := hn1
      have hlast := ih (Nat.le_of_succ_le hn1) hm
      rw [labelStateAt_succ s0 hs n hn, labelStep_cases, hraw n hn,
        if_pos hlast.symm]
      simpa using hlast

/-- C5: feeding single-hand frames whose raw classification is a constant label
r that differs from the currently reported label (and is a fresh candidate), a
run of fewer than 4 consecutive such frames never changes the reported label,
while a run of 4 or more changes it to r. -/
theorem labelDebounce (s0 : LabelState) (hs : List HandFrame) (r : GestureName)
    (hne : r ≠ s0.lastGesture) (hcand : r ≠ s0.candidate)
    (hraw : ∀ i, i < hs.length →
      (classify (labelStateAt s0 hs i) (hs.getD i defaultFrame)).1 = r) :
    (hs.length < 4 → ∀ i, i ≤ hs.length →
      (labelStateAt s0 hs i).lastGesture = s0.lastGesture) ∧
    (4 ≤ hs.length → (labelStateAt s0 hs hs.length).lastGesture = r) := by
  constructor
  · intro hlen i hi
    exact (labelRun_hold s0 hs r hne hcand hraw i hi (by omega)).1
  · intro hlen
    have h3 := labelRun_hold s0 hs r hne hcand hraw 3 (by omega) (by norm_num)
    have h4 : (labelStateAt s0 hs 4).lastGesture = r := by
      have hi : 3 < hs.length := by omega
      have hcls : ¬ (r = (labelStateAt s0 hs 3).lastGesture) := by
        rw [h3.1]; exact hne
      have hcand3 : r = (labelStateAt s0 hs 3).candidate := by
        rw [h3.2.1]; norm_num
      have hhold3 : 4 ≤ (labelStateAt s0 hs 3).holdFrames + 1 := by
        rw [h3.2.2]; norm_num
      rw [show (4 : ℕ) = 3 + 1 from rfl, labelStateAt_succ s0 hs 3 hi,
        labelStep_cases, hraw 3 hi, if_neg hcls, if_pos hcand3, if_pos hhold3]
    exact labelRun_stable s0 hs r hraw 4 hs.length hlen le_rfl h4

theorem getD_replicate_of_lt {α : Type _} (a d : α) (n i : ℕ) (h : i < n) :
    (List.replicate n a).getD i d = a := by
  induction n generalizing i with
  | zero => omega
  | succ n ih =>
      cases i with
      | zero => simp [List.replicate]
      | succ i => simpa [List.replicate] using ih i (by omega)

/-- A hand with all 21 landmarks at the image center and pinch 0; its raw
classification is FIST in every plugin state. -/
def fistFrame : HandFrame :=
  { landmarks := List.replicate 21 ⟨0.5, 0.5, 0⟩
    centerX := 0.5
    centerY := 0.5
    size := 0.5
    pinch := 0
    t := 0
    handedness := none }

theorem classify_fist (s : LabelState) :
    (classify s fistFrame).1 = GestureName.FIST := by
  have hpa : checkPinch s.pinchActive fistFrame.pinch = false := by
    unfold checkPinch fistFrame
    cases s.pinchActive <;> norm_num
  have hY : ∀ i, i < 21 → lmY fistFrame.landmarks i = 0.5 := by
    intro i hi
    unfold lmY fistFrame
    rw [getD_replicate_of_lt _ _ _ _ hi]
  have hX : ∀ i, i < 21 → lmX fistFrame.landmarks i = 0.5 := by
    intro i hi
    unfold lmX fistFrame
    rw [getD_replicate_of_lt _ _ _ _ hi]
  have hfing : ∀ pip dip tip : ℕ, pip < 21 → dip < 21 → tip < 21 →
      ¬ isFingerExtended fistFrame.landmarks pip dip tip := by
    intro pip dip tip h1 h2 h3 hcon
    rw [isFingerExtended, hY tip h3, hY pip h1] at hcon
    exact lt_irrefl _ hcon.1
  have hIdx := hfing 6 7 8 (by norm_num) (by norm_num) (by norm_num)
  have hMid := hfing 10 11 12 (by norm_num) (by norm_num) (by norm_num)
  have hRing := hfing 14 15 16 (by norm_num) (by norm_num) (by norm_num)
  have hPinky := hfing 18 19 20 (by norm_num) (by norm_num) (by norm_num)
  have hthumb : ¬ isThumbExtended fistFrame.landmarks := by
    rw [isThumbExtended, hX 4 (by norm_num), hX 2 (by norm_num)]
    norm_num
  simp [classify, hpa, hIdx, hMid, hRing, hPinky, hthumb]

/-- Witness for the C5 theorem: four consecutive FIST-classified single-hand
frames flip the reported label of a fresh plugin from NONE to FIST. -/
theorem labelDebounce_witness :
    (GestureName.FIST ≠ initLabelState.lastGesture) ∧
    (GestureName.FIST ≠ initLabelState.candidate) ∧
    (labelStateAt initLabelState (List.replicate 4 fistFrame)
      (List.replicate 4 fistFrame).length).lastGesture = GestureName.FIST := by
  have hraw : ∀ i, i < (List.replicate 4 fistFrame).length →
      (classify (labelStateAt initLabelState (List.replicate 4 fistFrame) i)
        ((List.replicate 4 fistFrame).getD i defaultFrame)).1 = GestureName.FIST := by
    intro i hi
    rw [getD_replicate_of_lt _ _ _ _ (by simpa using hi)]
    exact classify_fist _
  refine ⟨by decide, by decide, ?_⟩
  exact (labelDebounce initLabelState (List.replicate 4 fistFrame) GestureName.FIST
    (by decide) (by decide) hraw).2 (by simp)

/-! ## ShakeScatterPlugin (ShakeScatterPlugin.ts) -/

/-- Mutable fields of `ShakeScatterPlugin`; `emaValue = none` models an EMA
that has not received its first sample (`inited = false`). -/
structure ShakeState where
  prevX : ℝ
  prevY : ℝ
  history : List ℝ
  emaValue : Option ℝ
  cooldown : ℝ

/-- Initial `ShakeScatterPlugin` field values. -/
def initShakeState : ShakeState :=
  { prevX := 0, prevY := 0, history := [], emaValue := none, cooldown := 0 }

/-- Embedding of `EMA.update` from src/utils/smoothing.ts: the first sample is
returned as-is, later samples are blended `alpha * x + (1 - alpha) * value`. -/
def emaUpdate (alpha : ℝ) (st : Option ℝ) (x : ℝ) : ℝ × Option ℝ :=
  match st with
  | none => (x, some x)
  | some v => (alpha * x + (1 - alpha) * v, some (alpha * x + (1 - alpha) * v))

/-- Sum of absolute differences of consecutive entries: the energy loop of
`ShakeScatterPlugin.update` (lines 165-171) before the division. -/
def adjDiffSum : List ℝ → ℝ
  | [] => 0
  | [_] => 0
  | a :: b :: t => |b - a| + adjDiffSum (b :: t)

section
open Classical

/-- Embedding of `ShakeScatterPlugin.update` (lines 111-206): single-hand only,
dt floored to 1e-3, speed from the previous center, an 8-sample speed history,
jerk energy smoothed by an EMA with alpha 0.35, a cooldown decremented by dt
and clamped at 0, and a SCATTER pulse with cooldown reset to 1 when the
cooldown has reached 0 and the smoothed energy exceeds 2.2. -/
def shakeUpdate (s : ShakeState) (frames : List HandFrame) (ctx : GestureContext) :
    List InteractionEvent × ShakeState :=
  match frames with
  | [h] =>
      let dt := max ctx.dt 0.001
      let vx := (h.centerX - s.prevX) / dt
      let vy := (h.centerY - s.prevY) / dt
      let v := hypot vx vy
      let hist1 := s.history ++ [v]
      let hist2 := if 8 < hist1.length then hist1.tail else hist1
      let energy := adjDiffSum hist2 / (hist2.length : ℝ)
      let p := emaUpdate 0.35 s.emaValue energy
      let cd := max 0 (s.cooldown - dt)
      if cd ≤ 0 ∧ p.1 > 2.2 then
        ([InteractionEvent.SCATTER],
         { prevX := h.centerX
           prevY := h.centerY
           history := hist2
           emaValue := p.2
           cooldown := 1 })
      else
        ([], { prevX := h.centerX
               prevY := h.centerY
               history := hist2
               emaValue := p.2
               cooldown := cd })
  | _ => ([], s)

end

/-- Default tick used to model JS indexing defaults. -/
def defaultTick : List HandFrame × GestureContext := ([], { dt := 0, time := 0 })

/-- Plugin state after the first `i` ticks of a run of `ShakeScatterPlugin`. -/
def shakeStateAt (s0 : ShakeState) (ins : List (List HandFrame × GestureContext))
    (i : ℕ) : ShakeState :=
  (ins.take i).foldl (fun s p => (shakeUpdate s p.1 p.2).2) s0

/-- Events emitted by tick `i` of a run of `ShakeScatterPlugin`. -/
def shakeOutAt (s0 : ShakeState) (ins : List (List HandFrame × GestureContext))
    (i : ℕ) : List InteractionEvent :=
  (shakeUpdate (shakeStateAt s0 ins i) (ins.getD i defaultTick).1
    (ins.getD i defaultTick).2).1

/-- dt supplied to tick `t` of a run. -/
def dtAt (ins : List (List HandFrame × GestureContext)) (t : ℕ) : ℝ :=
  (ins.getD t defaultTick).2.dt

theorem shakeStateAt_succ (s0 : ShakeState)
    (ins : List (List HandFrame × GestureContext)) (i : ℕ) (hi : i < ins.length) :
    shakeStateAt s0 ins (i + 1) =
      (shakeUpdate (shakeStateAt s0 ins i) (ins.getD i defaultTick).1
        (ins.getD i defaultTick).2).2 := by
  unfold shakeStateAt
  rw [List.take_succ, List.foldl_append]
  rw [List.getElem?_eq_getElem hi]
  rw [List.getD_eq_getElem?_getD, List.getElem?_eq_getElem hi]
  rfl

theorem shake_emit_cooldown (s : ShakeState) (frames : List HandFrame)
    (ctx : GestureContext)
    (h : InteractionEvent.SCATTER ∈ (shakeUpdate s frames ctx).1) :
    (shakeUpdate s frames ctx).2.cooldown = 1 := by
  rcases frames with _ | ⟨a, _ | ⟨b, t⟩⟩
  · simp [shakeUpdate] at h
  · simp only [shakeUpdate] at h ⊢
    split_ifs at h ⊢ <;> first | rfl | simp at h
  · simp [shakeUpdate] at h

theorem shake_emit_cond (s : ShakeState) (frames : List HandFrame)
    (ctx : GestureContext)
    (h : InteractionEvent.SCATTER ∈ (shakeUpdate s frames ctx).1) :
    s.cooldown ≤ max ctx.dt 0.001 := by
  rcases frames with _ | ⟨a, _ | ⟨b, t⟩⟩
  · simp [shakeUpdate] at h
  · simp only [shakeUpdate] at h
    split_ifs at h with h8 hc hc'
    · have h1 := hc.1
      rw [max_le_iff] at h1
      linarith [h1.2]
    · simp at h
    · have h1 := hc'.1
      rw [max_le_iff] at h1
      linarith [h1.2]
    · simp at h
  · simp [shakeUpdate] at h

theorem shake_cooldown_ge (s : ShakeState) (frames : List HandFrame)
    (ctx : GestureContext) :
    s.cooldown - max ctx.dt 0.001 ≤ (shakeUpdate s frames ctx).2.cooldown := by
  have hpos : (0 : ℝ) ≤ max ctx.dt 0.001 :=
    le_trans (by norm_num) (le_max_right ctx.dt 0.001)
  rcases frames with _ | ⟨a, _ | ⟨b, t⟩⟩
  · simp only [shakeUpdate]
    linarith
  · simp only [shakeUpdate]
    split_ifs with h8 hc hc'
    · have h1 := hc.1
      rw [max_le_iff] at h1
      show s.cooldown - max ctx.dt 0.001 ≤ (1 : ℝ)
      linarith [h1.2]
    · show s.cooldown - max ctx.dt 0.001 ≤ max 0 (s.cooldown - max ctx.dt 0.001)
      exact le_max_right _ _
    · have h1 := hc'.1
      rw [max_le_iff] at h1
      show s.cooldown - max ctx.dt 0.001 ≤ (1 : ℝ)
      linarith [h1.2]
    · show s.cooldown - max ctx.dt 0.001 ≤ max 0 (s.cooldown - max ctx.dt 0.001)
      exact le_max_right _ _
  · simp only [shakeUpdate]
    linarith

theorem shake_cd_lower (s0 : ShakeState)
    (ins : List (List HandFrame × GestureContext))
    (hdt : ∀ p ∈ ins, 0.001 ≤ p.2.dt) (i : ℕ)
    (hcd : (shakeStateAt s0 ins (i + 1)).cooldown = 1) :
    ∀ m, i + 1 + m ≤ ins.length →
      1 - (∑ t ∈ Finset.range m, dtAt ins (i + 1 + t)) ≤
        (shakeStateAt s0 ins (i + 1 + m)).cooldown := by
  intro m
  induction m with
  | zero => intro _; simp [hcd]
  | succ m ih =>
      intro hm
      have hm' : i + 1 + m ≤ ins.length := by omega
      have hlt : i + 1 + m < ins.length := by omega
      have hstep := shake_cooldown_ge (shakeStateAt s0 ins (i + 1 + m))
        (ins.getD (i + 1 + m) defaultTick).1 (ins.getD (i + 1 + m) defaultTick).2
      rw [← shakeStateAt_succ s0 ins (i + 1 + m) hlt] at hstep
      have hmem : ins.getD (i + 1 + m) defaultTick ∈ ins := by
        rw [List.getD_eq_getElem?_getD, List.getElem?_eq_getElem hlt]
        exact List.getElem_mem hlt
      have hmax : max (ins.getD (i + 1 + m) defaultTick).2.dt 0.001
          = dtAt ins (i + 1 + m) :=
        max_eq_left (hdt _ hmem)
      rw [hmax] at hstep
      rw [Finset.sum_range_succ, show i + 1 + (m + 1) = i + 1 + m + 1 by omega]
      have hrec := ih hm'
      linarith

/-- C6: if `ShakeScatterPlugin` emits SCATTER on tick i of a single-plugin run
whose per-tick dt is at least 0.001, then no SCATTER is emitted on any later
tick j while the dt accumulated over ticks i+1..j stays below 1 second. -/
theorem shakeScatter_rate_limit (s0 : ShakeState)
    (ins : List (List HandFrame × GestureContext)) (i j : ℕ)
    (hdt : ∀ p ∈ ins, 0.001 ≤ p.2.dt)
    (hij : i < j) (hj : j < ins.length)
    (hemit : InteractionEvent.SCATTER ∈ shakeOutAt s0 ins i)
    (hsum : (∑ t ∈ Finset.range (j - i), dtAt ins (i + 1 + t)) < 1) :
    InteractionEvent.SCATTER ∉ shakeOutAt s0 ins j := by
  intro hemitj
  have hi : i < ins.length := lt_trans hij hj
  have hcd1 : (shakeStateAt s0 ins (i + 1)).cooldown = 1 := by
    rw [shakeStateAt_succ s0 ins i hi]
    exact shake_emit_cooldown _ _ _ hemit
  have hinv := shake_cd_lower s0 ins hdt i hcd1 (j - i - 1) (by omega)
  have hmle : i + 1 + (j - i - 1) = j := by omega
  rw [hmle] at hinv
  have hcond := shake_emit_cond _ _ _ hemitj
  have hmemj : ins.getD j defaultTick ∈ ins := by
    rw [List.getD_eq_getElem?_getD, List.getElem?_eq_getElem hj]
    exact List.getElem_mem hj
  have hmaxj : max (ins.getD j defaultTick).2.dt 0.001 = dtAt ins j :=
    max_eq_left (hdt _ hmemj)
  rw [hmaxj] at hcond
  have hsplit : (∑ t ∈ Finset.range (j - i), dtAt ins (i + 1 + t)) =
      (∑ t ∈ Finset.range (j - i - 1), dtAt ins (i + 1 + t)) + dtAt ins j := by
    set m := j - i - 1 with hm
    rw [show j - i = m + 1 by omega, Finset.sum_range_succ,
      show i + 1 + m = j by omega]
  rw [hsplit] at hsum
  linarith

/-- Hand used by the C6 witness run. -/
def shakeFrame : HandFrame :=
  { landmarks := []
    centerX := 12
    centerY := 0
    size := 0
    pinch := 0
    t := 0
    handedness := none }

/-- Plugin state from which the next fast hand movement fires SCATTER. -/
def shakeW0 : ShakeState :=
  { prevX := 0, prevY := 0, history := [0, 6, 0], emaValue := none, cooldown := 0 }

/-- Two single-hand ticks: one that fires SCATTER, one 0.5 s later. -/
def shakeIns : List (List HandFrame × GestureContext) :=
  [([shakeFrame], { dt := 1, time := 0 }), ([shakeFrame], { dt := 0.5, time := 1 })]

theorem shakeIns_emit : InteractionEvent.SCATTER ∈ shakeOutAt shakeW0 shakeIns 0 := by
  have hyp12 : hypot 12 0 = 12 := by
    rw [hypot, show ((12 : ℝ) * 12 + 0 * 0) = 12 ^ 2 by norm_num]
    exact Real.sqrt_sq (by norm_num)
  have hmax0 : max (0 : ℝ) (0 - max 1 0.001) = 0 := by
    rw [show max (1 : ℝ) 0.001 = 1 from max_eq_left (by norm_num)]
    exact max_eq_left (by norm_num)
  simp only [shakeOutAt, shakeStateAt, shakeIns, shakeW0, shakeFrame, List.take_zero,
    List.foldl_nil, List.getD_cons_zero, shakeUpdate]
  norm_num [hmax0, adjDiffSum, emaUpdate, hyp12]

/-- Witness for the C6 theorem: the concrete run `shakeIns` fires SCATTER on
tick 0 and, with only 0.5 s accumulated, the theorem forbids SCATTER on tick 1. -/
theorem shakeScatter_rate_limit_witness :
    (InteractionEvent.SCATTER ∈ shakeOutAt shakeW0 shakeIns 0) ∧
    ((∑ t ∈ Finset.range (1 - 0), dtAt shakeIns (0 + 1 + t)) < 1) ∧
    InteractionEvent.SCATTER ∉ shakeOutAt shakeW0 shakeIns 1 := by
  have hsum : (∑ t ∈ Finset.range (1 - 0), dtAt shakeIns (0 + 1 + t)) < 1 := by
    norm_num [dtAt, shakeIns]
  refine ⟨shakeIns_emit, hsum, ?_⟩
  exact shakeScatter_rate_limit shakeW0 shakeIns 0 1
    (by
      intro p hp
      simp only [shakeIns, List.mem_cons, List.mem_singleton, List.not_mem_nil] at hp
      rcases hp with rfl | rfl | hfalse
      · norm_num
      · norm_num
      · exact absurd hfalse (by simp))
    (by norm_num) (by norm_num [shakeIns]) shakeIns_emit hsum

/-! ## ParticleSystem (src/unnamed/part_003) -/

/-- Embedding of `pseudoDir` from ParticleSystem.ts: index-stable pseudo-random
unit direction; the JS `|| 1` fallback on a zero length is the inner `if`. -/
def pseudoDir (i : ℕ) : ℝ × ℝ × ℝ :=
  let x := fract (Real.sin (i * 12.9898) * 43758.5453) * 2 - 1
  let y := fract (Real.sin (i * 78.233) * 12345.6789) * 2 - 1
  let z := fract (Real.sin (i * 39.425) * 98765.4321) * 2 - 1
  let len := Real.sqrt (x * x + y * y + z * z)
  let len2 := if len = 0 then 1 else len
  (x / len2, y / len2, z / len2)

/-- Mutable fields of `ParticleSystem`; `pos` and the target buffers are flat
lists of coordinates, mirroring the `Float32Array`s of length `count * 3`. -/
structure ParticleSystem where
  count : ℕ
  targets : ShapeName → List ℝ
  currentTarget : List ℝ
  pos : List ℝ
  scatter : ℝ
  scatterVel : ℝ
  spread : ℝ
  panX : ℝ
  panY : ℝ
  zoom : ℝ
  rotationZ : ℝ

/-- Embedding of `ParticleSystem.updateParticles` (part_003 lines 121-160):
scatter impulse decay (base 0.08), scatter accumulation clamped to [0,1] and
decay (base 0.35), then per-particle blending toward the deformed target with
follow factor `1 - 0.002 ^ dt`.  Out-of-range JS array reads (undefined / NaN)
are modelled by the default 0; no claim inspects those values. -/
def updateParticles (p : ParticleSystem) (dt breatheScale : ℝ) : ParticleSystem :=
  let scatterVel1 := lerp p.scatterVel 0 (1 - (0.08 : ℝ) ^ dt)
  let scatter1 := clamp (p.scatter + scatterVel1 * dt) 0 1
  let scatter2 := lerp scatter1 0 (1 - (0.35 : ℝ) ^ dt)
  let follow := 1 - (0.002 : ℝ) ^ dt
  let pos1 := (List.range p.count).bind (fun i =>
    let tx := p.currentTarget.getD (i * 3) 0
    let ty := p.currentTarget.getD (i * 3 + 1) 0
    let tz := p.currentTarget.getD (i * 3 + 2) 0
    let dir := pseudoDir i
    let spreadAmt := p.spread * 0.9
    let scatterAmt := scatter2 * 2.2
    let gx := (tx + dir.1 * spreadAmt + dir.1 * scatterAmt) * breatheScale
    let gy := (ty + dir.2.1 * spreadAmt + dir.2.1 * scatterAmt) * breatheScale
    let gz := (tz + dir.2.2 * spreadAmt + dir.2.2 * scatterAmt) * breatheScale
    [lerp (p.pos.getD (i * 3) 0) gx follow,
     lerp (p.pos.getD (i * 3 + 1) 0) gy follow,
     lerp (p.pos.getD (i * 3 + 2) 0) gz follow])
  { p with
    scatterVel := scatterVel1
    scatter := scatter2
    pos := pos1 }

/-- Embedding of `ParticleSystem.applyInteraction` (part_003 lines 86-119):
shape selection, frame-rate-independent exponential approach of pan / zoom /
rotation / spread (bases 0.0006, 0.0008, 0.0007, 0.001), the CONVERGE and
SCATTER pulse branches, the breathing factor, then `updateParticles`. -/
def applyInteraction (p : ParticleSystem) (s : InteractionState) (dt t : ℝ) :
    ParticleSystem :=
  let p0 := { p with currentTarget := p.targets s.shape }
  let p1 := { p0 with
    panX := lerp p0.panX s.panX (1 - (0.0006 : ℝ) ^ dt)
    panY := lerp p0.panY s.panY (1 - (0.0006 : ℝ) ^ dt)
    zoom := lerp p0.zoom s.zoom (1 - (0.0008 : ℝ) ^ dt)
    rotationZ := lerp p0.rotationZ s.rotation (1 - (0.0007 : ℝ) ^ dt)
    spread := lerp p0.spread s.spread (1 - (0.001 : ℝ) ^ dt) }
  let p2 :=
    if s.converge then
      { p1 with
        spread := p1.spread * 0.88
        scatter := p1.scatter * 0.7 }
    else p1
  let p3 :=
    if s.scatter then { p2 with scatterVel := min 2.0 (p2.scatterVel + 1.4) }
    else p2
  let breathe := 1 + Real.sin (t * 2.0) * 0.03 * s.stillness
  updateParticles p3 dt breathe

/-- Iterated dynamics under a fixed interaction state and fixed dt, with the
global time advancing by dt each frame. -/
def iterDyn (p : ParticleSystem) (s : InteractionState) (dt t0 : ℝ) : ℕ → ParticleSystem
  | 0 => p
  | n + 1 => applyInteraction (iterDyn p s dt t0 n) s dt (t0 + n * dt)

theorem applyInteraction_zoom (p : ParticleSystem) (s : InteractionState) (dt t : ℝ) :
    (applyInteraction p s dt t).zoom = lerp p.zoom s.zoom (1 - (0.0008 : ℝ) ^ dt) := by
  simp only [applyInteraction, updateParticles]
  split_ifs <;> rfl

theorem applyInteraction_panX (p : ParticleSystem) (s : InteractionState) (dt t : ℝ) :
    (applyInteraction p s dt t).panX = lerp p.panX s.panX (1 - (0.0006 : ℝ) ^ dt) := by
  simp only [applyInteraction, updateParticles]
  split_ifs <;> rfl

theorem applyInteraction_panY (p : ParticleSystem) (s : InteractionState) (dt t : ℝ) :
    (applyInteraction p s dt t).panY = lerp p.panY s.panY (1 - (0.0006 : ℝ) ^ dt) := by
  simp only [applyInteraction, updateParticles]
  split_ifs <;> rfl

theorem applyInteraction_spread (p : ParticleSystem) (s : InteractionState) (dt t : ℝ)
    (hconv : s.converge = false) :
    (applyInteraction p s dt t).spread = lerp p.spread s.spread (1 - (0.001 : ℝ) ^ dt) := by
  simp only [applyInteraction, updateParticles, hconv, Bool.false_eq_true, if_false]
  split_ifs <;> rfl

/-- Empty particle system used as a concrete input. -/
def dynP0 : ParticleSystem :=
  { count := 0
    targets := fun _ => []
    currentTarget := []
    pos := []
    scatter := 0
    scatterVel := 0
    spread := 0
    panX := 0
    panY := 0
    zoom := 0
    rotationZ := 0 }

/-- C2 counterexample: the particle dynamics step does not floor a degenerate
dt before its exponential-decay computations: there is no positive epsilon such
that `applyInteraction` behaves as if dt were floored to it; at dt = 0 the zoom
channel does not move, while any floored dt would move it. -/
theorem dyn_dt_not_floored :
    ¬ ∃ ε : ℝ, 0 < ε ∧ ∀ (p : ParticleSystem) (s : InteractionState) (dt t : ℝ),
        applyInteraction p s dt t = applyInteraction p s (max dt ε) t := by
  rintro ⟨ε, hε, hall⟩
  have h := congrArg ParticleSystem.zoom (hall dynP0 initialState 0 0)
  rw [applyInteraction_zoom, applyInteraction_zoom,
    max_eq_right (le_of_lt hε)] at h
  have h0 : ((0.0008 : ℝ)) ^ (0 : ℝ) = 1 := Real.rpow_zero _
  have hlt : (0.0008 : ℝ) ^ ε < 1 :=
    Real.rpow_lt_one (by norm_num) (by norm_num) hε
  rw [h0] at h
  simp only [lerp, dynP0, initialState] at h
  norm_num at h
  linarith

/-- C2 amended: dt flooring to the 1e-3 epsilon happens in the stateful
ShakeScatter plugin (whose update is invariant under pre-flooring its dt),
not in the particle dynamics step. -/
theorem shakeUpdate_dt_floored (s : ShakeState) (frames : List HandFrame)
    (ctx : GestureContext) :
    shakeUpdate s frames ctx =
      shakeUpdate s frames { ctx with dt := max ctx.dt 0.001 } := by
  rcases frames with _ | ⟨a, _ | ⟨b, t⟩⟩
  · rfl
  · simp only [shakeUpdate]
    rw [max_assoc, max_self]
  · rfl

theorem pow_chan_bound (b : ℝ) (hb0 : 0 < b) (hb1 : b ≤ 1)
    (hupper : b ^ (124 : ℕ) ≤ (b + 0.0001) ^ (125 : ℕ)) (x0 s : ℝ) :
    |(s + (x0 - s) * ((b ^ (0.016 : ℝ)) ^ (62 : ℕ))) -
      (s + (x0 - s) * ((b ^ (0.1 : ℝ)) ^ (10 : ℕ)))| ≤ 0.0001 * |x0 - s| := by
  have h62 : (b ^ (0.016 : ℝ)) ^ (62 : ℕ) = b ^ (0.992 : ℝ) := by
    rw [← Real.rpow_natCast (b ^ (0.016 : ℝ)) 62, ← Real.rpow_mul hb0.le]
    norm_num
  have h10 : (b ^ (0.1 : ℝ)) ^ (10 : ℕ) = b := by
    rw [← Real.rpow_natCast (b ^ (0.1 : ℝ)) 10, ← Real.rpow_mul hb0.le]
    norm_num
  have hlow : b ≤ b ^ (0.992 : ℝ) := by
    calc b = b ^ (1 : ℝ) := (Real.rpow_one b).symm
    _ ≤ b ^ (0.992 : ℝ) :=
        Real.rpow_le_rpow_of_exponent_ge hb0 hb1 (by norm_num)
  have hup : b ^ (0.992 : ℝ) ≤ b + 0.0001 := by
    have hnn : (0 : ℝ) ≤ b ^ (0.992 : ℝ) := Real.rpow_nonneg hb0.le _
    have hc : (0 : ℝ) ≤ b + 0.0001 := by linarith
    rw [← pow_le_pow_iff_left₀ hnn hc (by norm_num : (125 : ℕ) ≠ 0)]
    calc (b ^ (0.992 : ℝ)) ^ (125 : ℕ) = b ^ (124 : ℕ) := by
          rw [← Real.rpow_natCast (b ^ (0.992 : ℝ)) 125, ← Real.rpow_mul hb0.le,
            show (0.992 : ℝ) * ((125 : ℕ) : ℝ) = ((124 : ℕ) : ℝ) by norm_num,
            Real.rpow_natCast]
    _ ≤ (b + 0.0001) ^ (125 : ℕ) := hupper
  rw [h62, h10]
  rw [show (s + (x0 - s) * b ^ (0.992 : ℝ)) - (s + (x0 - s) * b) =
    (x0 - s) * (b ^ (0.992 : ℝ) - b) by ring]
  rw [abs_mul]
  have habs : |b ^ (0.992 : ℝ) - b| ≤ 0.0001 := by
    rw [abs_le]
    constructor <;> linarith
  calc |x0 - s| * |b ^ (0.992 : ℝ) - b| ≤ |x0 - s| * 0.0001 :=
        mul_le_mul_of_nonneg_left habs (abs_nonneg _)
  _ = 0.0001 * |x0 - s| := by ring

theorem iterDyn_zoom (p : ParticleSystem) (s : InteractionState) (dt t0 : ℝ) (n : ℕ) :
    (iterDyn p s dt t0 n).zoom =
      s.zoom + (p.zoom - s.zoom) * ((0.0008 : ℝ) ^ dt) ^ n := by
  induction n with
  | zero => simp [iterDyn]
  | succ n ih =>
      rw [iterDyn, applyInteraction_zoom, ih, lerp]
      ring

theorem iterDyn_panX (p : ParticleSystem) (s : InteractionState) (dt t0 : ℝ) (n : ℕ) :
    (iterDyn p s dt t0 n).panX =
      s.panX + (p.panX - s.panX) * ((0.0006 : ℝ) ^ dt) ^ n := by
  induction n with
  | zero => simp [iterDyn]
  | succ n ih =>
      rw [iterDyn, applyInteraction_panX, ih, lerp]
      ring

theorem iterDyn_panY (p : ParticleSystem) (s : InteractionState) (dt t0 : ℝ) (n : ℕ) :
    (iterDyn p s dt t0 n).panY =
      s.panY + (p.panY - s.panY) * ((0.0006 : ℝ) ^ dt) ^ n := by
  induction n with
  | zero => simp [iterDyn]
  | succ n ih =>
      rw [iterDyn, applyInteraction_panY, ih, lerp]
      ring

theorem iterDyn_spread (p : ParticleSystem) (s : InteractionState) (dt t0 : ℝ)
    (hconv : s.converge = false) (n : ℕ) :
    (iterDyn p s dt t0 n).spread =
      s.spread + (p.spread - s.spread) * ((0.001 : ℝ) ^ dt) ^ n := by
  induction n with
  | zero => simp [iterDyn]
  | succ n ih =>
      rw [iterDyn, applyInteraction_spread _ _ _ _ hconv, ih, lerp]
      ring

/-- C3: under an unchanging interaction state whose CONVERGE pulse is off,
62 steps at dt = 0.016 and 10 steps at dt = 0.1 from the same initial engine
state land within 1e-4 of each other (relative to the initial offset from the
target) on the spread, zoom and pan channels. -/
theorem dyn_framerate_independence (p : ParticleSystem) (s : InteractionState)
    (t0 t1 : ℝ) (hconv : s.converge = false) :
    |(iterDyn p s 0.016 t0 62).spread - (iterDyn p s 0.1 t1 10).spread| ≤
      0.0001 * |p.spread - s.spread| ∧
    |(iterDyn p s 0.016 t0 62).zoom - (iterDyn p s 0.1 t1 10).zoom| ≤
      0.0001 * |p.zoom - s.zoom| ∧
    |(iterDyn p s 0.016 t0 62).panX - (iterDyn p s 0.1 t1 10).panX| ≤
      0.0001 * |p.panX - s.panX| ∧
    |(iterDyn p s 0.016 t0 62).panY - (iterDyn p s 0.1 t1 10).panY| ≤
      0.0001 * |p.panY - s.panY| := by
  refine ⟨?_, ?_, ?_, ?_⟩
  · rw [iterDyn_spread p s 0.016 t0 hconv 62, iterDyn_spread p s 0.1 t1 hconv 10]
    exact pow_chan_bound 0.001 (by norm_num) (by norm_num) (by norm_num) p.spread s.spread
  · rw [iterDyn_zoom p s 0.016 t0 62, iterDyn_zoom p s 0.1 t1 10]
    exact pow_chan_bound 0.0008 (by norm_num) (by norm_num) (by norm_num) p.zoom s.zoom
  · rw [iterDyn_panX p s 0.016 t0 62, iterDyn_panX p s 0.1 t1 10]
    exact pow_chan_bound 0.0006 (by norm_num) (by norm_num) (by norm_num) p.panX s.panX
  · rw [iterDyn_panY p s 0.016 t0 62, iterDyn_panY p s 0.1 t1 10]
    exact pow_chan_bound 0.0006 (by norm_num) (by norm_num) (by norm_num) p.panY s.panY

/-- Witness for the C3 theorem at concrete inputs: the fresh engine state and
the initial interaction state (whose CONVERGE pulse is off). -/
theorem dyn_framerate_independence_witness :
    initialState.converge = false ∧
    |(iterDyn dynP0 initialState 0.016 0 62).zoom -
      (iterDyn dynP0 initialState 0.1 0 10).zoom| ≤
      0.0001 * |dynP0.zoom - initialState.zoom| :=
  ⟨rfl, (dyn_framerate_independence dynP0 initialState 0 0 rfl).2.1⟩

/-! ## GestureEngine (GestureEngine.ts) -/

/-- Embedding of `PluginPhase` from GesturePlugin.ts. -/
inductive PluginPhase where
  | before
  | main
  | after
  deriving DecidableEq

/-- Embedding of the `GesturePlugin` interface: optional priority, optional
enabled flag, optional phase, and the per-tick update function.  Plugin
internal state is irrelevant to the engine's scheduling, so `update` is a
function of the tick inputs only. -/
structure GesturePlugin where
  name : String
  priority : Option Int
  enabled : Option Bool
  phase : Option PluginPhase
  update : List HandFrame → GestureContext → List InteractionEvent

/-- Sort key of `loadPlugins`: `a.priority ?? 100`. -/
def priorityKey (p : GesturePlugin) : Int := p.priority.getD 100

/-- Insertion placing `x` after every element whose key is `≤` its own.
Folding it over the registration list models the ECMAScript stable
`Array.prototype.sort` with comparator
`(a.priority ?? 100) - (b.priority ?? 100)` used by `loadPlugins`. -/
def insertAfterLE (x : GesturePlugin) : List GesturePlugin → List GesturePlugin
  | [] => [x]
  | y :: ys =>
      if priorityKey y ≤ priorityKey x then y :: insertAfterLE x ys
      else x :: y :: ys

/-- The sorted plugin registry produced once by `loadPlugins`. -/
def sortPlugins (ps : List GesturePlugin) : List GesturePlugin :=
  ps.foldl (fun acc p => insertAfterLE p acc) []

/-- Embedding of the `runPhase` closure of `GestureEngine.process` (lines
158-172): iterate the sorted registry, skip `enabled === false` plugins and
phase mismatches (`p.phase ?? "main"`), and append each update's events. -/
def runPhase (sorted : List GesturePlugin) (ph : PluginPhase)
    (frames : List HandFrame) (ctx : GestureContext) : List InteractionEvent :=
  sorted.foldl
    (fun events p =>
      if p.enabled = some false then events
      else if ¬ (p.phase.getD PluginPhase.main = ph) then events
      else events ++ p.update frames ctx) []

/-- Embedding of `GestureEngine.process` (lines 141-182): the three phases run
in the fixed order before, main, after over the registry sorted at load time. -/
def gestureProcess (ps : List GesturePlugin) (frames : List HandFrame)
    (ctx : GestureContext) : List InteractionEvent :=
  let sorted := sortPlugins ps
  runPhase sorted PluginPhase.before frames ctx ++
    runPhase sorted PluginPhase.main frames ctx ++
    runPhase sorted PluginPhase.after frames ctx

/-- Specification-side predicate: the plugin participates in phase `ph`
(its enabled flag is not false and its defaulted phase matches). -/
def activeInPhase (ph : PluginPhase) (p : GesturePlugin) : Bool :=
  decide (¬ p.enabled = some false) && decide (p.phase.getD PluginPhase.main = ph)

/-- Specification-side execution order of one phase, built from the claim's
words: take the enabled plugins of that phase from the registration list, in
ascending priority with ties in registration order (stable sort after the
filter, where the code sorts once before filtering). -/
def specPhaseList (ps : List GesturePlugin) (ph : PluginPhase) :
    List GesturePlugin :=
  sortPlugins (ps.filter (activeInPhase ph))

theorem mem_insertAfterLE (x a : GesturePlugin) (l : List GesturePlugin) :
    a ∈ insertAfterLE x l ↔ a = x ∨ a ∈ l := by
  induction l with
  | nil => simp [insertAfterLE]
  | cons y ys ih =>
      simp only [insertAfterLE]
      split_ifs with hle <;> simp [ih] <;> tauto

/-- Ordering invariant of the accumulator of `sortPlugins`. -/
def sortedByKey (l : List GesturePlugin) : Prop :=
  l.Pairwise (fun a b => priorityKey a ≤ priorityKey b)

theorem insertAfterLE_sorted (x : GesturePlugin) (l : List GesturePlugin)
    (h : sortedByKey l) : sortedByKey (insertAfterLE x l) := by
  induction l with
  | nil => simp [insertAfterLE, sortedByKey]
  | cons y ys ih =>
      simp only [sortedByKey, List.pairwise_cons] at h
      simp only [insertAfterLE]
      split_ifs with hle
      · simp only [sortedByKey, List.pairwise_cons]
        refine ⟨?_, ih h.2⟩
        intro b hb
        rcases (mem_insertAfterLE x b ys).mp hb with rfl | hb'
        · exact hle
        · exact h.1 b hb'
      · simp only [sortedByKey, List.pairwise_cons]
        refine ⟨?_, h.1, h.2⟩
        intro b hb
        rcases List.mem_cons.mp hb with rfl | hb'
        · exact le_of_lt (lt_of_not_le hle)
        · exact le_trans (le_of_lt (lt_of_not_le hle)) (h.1 b hb')

theorem insertAfterLE_of_forall_gt (x : GesturePlugin) (l : List GesturePlugin)
    (h : ∀ z ∈ l, ¬ priorityKey z ≤ priorityKey x) :
    insertAfterLE x l = x :: l := by
  cases l with
  | nil => rfl
  | cons z zs =>
      simp only [insertAfterLE]
      rw [if_neg (h z (List.mem_cons_self z zs))]

theorem filter_insertAfterLE (q : GesturePlugin → Bool) (x : GesturePlugin)
    (l : List GesturePlugin) (h : sortedByKey l) :
    (insertAfterLE x l).filter q =
      if q x then insertAfterLE x (l.filter q) else l.filter q := by
  induction l with
  | nil =>
      cases hq : q x <;> simp [insertAfterLE, List.filter, hq]
  | cons y ys ih =>
      simp only [sortedByKey, List.pairwise_cons] at h
      have ihy := ih h.2
      by_cases hle : priorityKey y ≤ priorityKey x
      · rw [show insertAfterLE x (y :: ys) = y :: insertAfterLE x ys from by
          simp [insertAfterLE, hle]]
        rw [List.filter_cons, List.filter_cons]
        cases hqy : q y
        · simp only [Bool.false_eq_true, if_false]
          exact ihy
        · simp only [if_true]
          rw [ihy]
          cases hqx : q x
          · simp
          · simp only [if_true]
            rw [show insertAfterLE x (y :: List.filter q ys) =
              y :: insertAfterLE x (List.filter q ys) from by
                simp [insertAfterLE, hle]]
      · rw [show insertAfterLE x (y :: ys) = x :: y :: ys from by
          simp [insertAfterLE, hle]]
        rw [List.filter_cons]
        cases hqx : q x
        · simp
        · simp only [if_true]
          rw [insertAfterLE_of_forall_gt x ((y :: ys).filter q) ?_]
          intro z hz
          have hzmem := List.mem_of_mem_filter hz
          rcases List.mem_cons.mp hzmem with rfl | hz'
          · exact hle
          · intro hcon
            exact hle (le_trans (h.1 z hz') hcon)

theorem sortPlugins_fold_sorted (ps : List GesturePlugin)
    (acc : List GesturePlugin) (h : sortedByKey acc) :
    sortedByKey (ps.foldl (fun a p => insertAfterLE p a) acc) := by
  induction ps generalizing acc with
  | nil => exact h
  | cons p ps ih => exact ih (insertAfterLE p acc) (insertAfterLE_sorted p acc h)

theorem filter_sortPlugins (q : GesturePlugin → Bool) (ps : List GesturePlugin) :
    (sortPlugins ps).filter q = sortPlugins (ps.filter q) := by
  suffices hgen : ∀ acc, sortedByKey acc →
      ((ps.foldl (fun a p => insertAfterLE p a) acc).filter q) =
        (ps.filter q).foldl (fun a p => insertAfterLE p a) (acc.filter q) by
    simpa [sortPlugins] using hgen [] (by simp [sortedByKey])
  induction ps with
  | nil => intro acc _; simp
  | cons p ps ih =>
      intro acc hacc
      simp only [List.foldl_cons, List.filter_cons]
      rw [ih (insertAfterLE p acc) (insertAfterLE_sorted p acc hacc),
        filter_insertAfterLE q p acc hacc]
      cases hq : q p
      · simp
      · simp [List.foldl_cons]

theorem runPhase_eq_flatMap (sorted : List GesturePlugin) (ph : PluginPhase)
    (frames : List HandFrame) (ctx : GestureContext) :
    runPhase sorted ph frames ctx =
      (sorted.filter (activeInPhase ph)).flatMap (fun p => p.update frames ctx) := by
  suffices hgen : ∀ init, sorted.foldl
      (fun events p =>
        if p.enabled = some false then events
        else if ¬ (p.phase.getD PluginPhase.main = ph) then events
        else events ++ p.update frames ctx) init =
      init ++ (sorted.filter (activeInPhase ph)).flatMap (fun p => p.update frames ctx) by
    simpa [runPhase] using hgen []
  induction sorted with
  | nil => intro init; simp
  | cons p l ih =>
      intro init
      simp only [List.foldl_cons, List.filter_cons]
      by_cases h1 : p.enabled = some false
      · rw [if_pos h1]
        rw [show activeInPhase ph p = false from by simp [activeInPhase, h1]]
        simp only [Bool.false_eq_true, if_false]
        exact ih init
      · rw [if_neg h1]
        by_cases h2 : p.phase.getD PluginPhase.main = ph
        · rw [if_neg (not_not_intro h2)]
          rw [show activeInPhase ph p = true from by simp [activeInPhase, h1, h2]]
          rw [if_pos rfl, List.flatMap_cons, ih (init ++ p.update frames ctx),
            List.append_assoc]
        · rw [if_pos h2]
          rw [show activeInPhase ph p = false from by simp [activeInPhase, h2]]
          simp only [Bool.false_eq_true, if_false]
          exact ih init

/-- C4: `process` runs the phases in the fixed order before, main, after, and
within each phase the output is exactly the concatenation of the updates of
the enabled plugins of that phase, in ascending priority with ties in
registration order; `enabled = false` plugins contribute nothing. -/
theorem gestureProcess_order (ps : List GesturePlugin) (frames : List HandFrame)
    (ctx : GestureContext) :
    gestureProcess ps frames ctx =
      (specPhaseList ps PluginPhase.before).flatMap (fun p => p.update frames ctx) ++
      (specPhaseList ps PluginPhase.main).flatMap (fun p => p.update frames ctx) ++
      (specPhaseList ps PluginPhase.after).flatMap (fun p => p.update frames ctx) := by
  simp only [gestureProcess, specPhaseList, ← filter_sortPlugins,
    runPhase_eq_flatMap, List.append_assoc]

/-! ## ShapeFactory (src/engine/particles/ShapeFactory.ts)

Randomness: every `Math.random()` draw of a shape generator is supplied by a
stream `rnd : ℕ → ℝ`, consumed at explicit indices in source order.  The TEXT
shape's canvas rasterization is an external collaborator (spec section 4.1),
so its sampled flat point list is a parameter `textPts`.  JS out-of-range
array reads (undefined, NaN once stored) are modelled by the default 0; only
buffer lengths matter to the claims. -/

/-- Embedding of `sphere`: uniform-by-volume unit ball (`Math.cbrt` on the
nonnegative random draw is the 1/3 power). -/
def sphere (n : ℕ) (rnd : ℕ → ℝ) : List ℝ :=
  (List.range n).flatMap (fun i =>
    let u := rnd (3 * i)
    let v := rnd (3 * i + 1)
    let theta := 2 * Real.pi * u
    let phi := Real.arccos (2 * v - 1)
    let r := (rnd (3 * i + 2)) ^ ((1 : ℝ) / 3)
    [r * Real.sin phi * Real.cos theta, r * Real.cos phi,
     r * Real.sin phi * Real.sin theta])

/-- Embedding of `cube`: uniform interior of [-1,1]^3. -/
def cube (n : ℕ) (rnd : ℕ → ℝ) : List ℝ :=
  (List.range n).flatMap (fun i =>
    [(rnd (3 * i) * 2 - 1) * 1.0, (rnd (3 * i + 1) * 2 - 1) * 1.0,
     (rnd (3 * i + 2) * 2 - 1) * 1.0])

/-- One jittered sample of the (p=2, q=3) torus-knot curve. -/
def torusKnotRaw (n : ℕ) (rnd : ℕ → ℝ) (i : ℕ) : ℝ × ℝ × ℝ :=
  let t := ((i : ℝ) / (n : ℝ)) * Real.pi * 2 * 6
  let x := (1.2 + 0.7 * Real.cos (3 * t)) * Real.cos (2 * t)
  let y := (1.2 + 0.7 * Real.cos (3 * t)) * Real.sin (2 * t)
  let z := 0.7 * Real.sin (3 * t)
  (x + (rnd (3 * i) * 2 - 1) * 0.06, y + (rnd (3 * i + 1) * 2 - 1) * 0.06,
   z + (rnd (3 * i + 2) * 2 - 1) * 0.06)

/-- Embedding of `torusKnot`: jittered curve samples, then global rescale by
the maximum distance from the origin. -/
def torusKnot (n : ℕ) (rnd : ℕ → ℝ) : List ℝ :=
  let raw := (List.range n).map (torusKnotRaw n rnd)
  let maxL := raw.foldl
    (fun m v => max m (Real.sqrt (v.1 * v.1 + v.2.1 * v.2.1 + v.2.2 * v.2.2))) 0
  raw.flatMap (fun v => [v.1 / maxL, v.2.1 / maxL, v.2.2 / maxL])

/-- Embedding of `wave`: random sheet with sinusoidal height. -/
def wave (n : ℕ) (rnd : ℕ → ℝ) : List ℝ :=
  (List.range n).flatMap (fun i =>
    let x := (rnd (2 * i) * 2 - 1) * 1.2
    let y := (rnd (2 * i + 1) * 2 - 1) * 0.8
    [x, y, Real.sin (x * 3) * 0.25 + Real.cos (y * 4) * 0.18])

/-- Embedding of `ring`: jittered circle of radius about 0.75 with thin z. -/
def ring (n : ℕ) (rnd : ℕ → ℝ) : List ℝ :=
  (List.range n).flatMap (fun i =>
    let t := rnd (3 * i) * Real.pi * 2
    let r := 0.75 + (rnd (3 * i + 1) * 2 - 1) * 0.1
    [Real.cos t * r, Real.sin t * r, (rnd (3 * i + 2) * 2 - 1) * 0.15])

/-- Embedding of `heart`: classic parametric heart curve with thin z jitter. -/
def heart (n : ℕ) (rnd : ℕ → ℝ) : List ℝ :=
  (List.range n).flatMap (fun i =>
    let t := rnd (2 * i) * Real.pi * 2
    let r := (0.9 : ℝ)
    let x := (r * 16 * Real.sin t ^ (3 : ℕ)) / 16
    let y := (-r * (13 * Real.cos t - 5 * Real.cos (2 * t) - 2 * Real.cos (3 * t)
      - Real.cos (4 * t))) / 16
    [x, y, (rnd (2 * i + 1) * 2 - 1) * 0.08])

/-- Embedding of `textShape` (ShapeFactory.ts lines 279-342) downstream of the
canvas sampling: the sampled flat point list `pts` is reused cyclically
(`i % m` with `m = max 1 (pts.length / 3)`) to fill exactly `n` triples. -/
def textShape (n : ℕ) (pts : List ℝ) : List ℝ :=
  (List.range n).flatMap (fun i =>
    let m := max 1 (pts.length / 3)
    let k := (i % m) * 3
    [pts.getD k 0, pts.getD (k + 1) 0, pts.getD (k + 2) 0])

/-- Embedding of `makeShapePositions` (ShapeFactory.ts lines 25-48); the TEXT
label is fixed to "ISEP" in source, its sampled points arrive as `textPts`. -/
def makeShapePositions (name : ShapeName) (count : ℕ) (rnd : ℕ → ℝ)
    (textPts : List ℝ) : List ℝ :=
  match name with
  | ShapeName.SPHERE => sphere count rnd
  | ShapeName.CUBE => cube count rnd
  | ShapeName.TORUSKNOT => torusKnot count rnd
  | ShapeName.WAVE => wave count rnd
  | ShapeName.RING => ring count rnd
  | ShapeName.HEART => heart count rnd
  | ShapeName.TEXT => textShape count textPts

theorem flatMap_length_triple {α : Type _} (l : List α) (f : α → List ℝ)
    (h : ∀ a, (f a).length = 3) : (l.flatMap f).length = l.length * 3 := by
  induction l with
  | nil => simp
  | cons a l ih =>
      rw [List.flatMap_cons, List.length_append, h a, ih, List.length_cons]
      ring

/-- C9: for every supported shape name and every count, `makeShapePositions`
returns a buffer of length exactly `count * 3`; for TEXT this holds for any
sampled point list (including one shorter than the count) thanks to the
cyclic index-modulo reuse. -/
theorem makeShapePositions_length (name : ShapeName) (count : ℕ) (rnd : ℕ → ℝ)
    (textPts : List ℝ) :
    (makeShapePositions name count rnd textPts).length = count * 3 := by
  cases name
  case SPHERE =>
    rw [show makeShapePositions ShapeName.SPHERE count rnd textPts
      = sphere count rnd from rfl, sphere,
      flatMap_length_triple _ _ (fun i => by rfl), List.length_range]
  case CUBE =>
    rw [show makeShapePositions ShapeName.CUBE count rnd textPts
      = cube count rnd from rfl, cube,
      flatMap_length_triple _ _ (fun i => by rfl), List.length_range]
  case TORUSKNOT =>
    rw [show makeShapePositions ShapeName.TORUSKNOT count rnd textPts
      = torusKnot count rnd from rfl]
    simp only [torusKnot]
    rw [flatMap_length_triple _ _ (fun v => by rfl), List.length_map,
      List.length_range]
  case WAVE =>
    rw [show makeShapePositions ShapeName.WAVE count rnd textPts
      = wave count rnd from rfl, wave,
      flatMap_length_triple _ _ (fun i => by rfl), List.length_range]
  case RING =>
    rw [show makeShapePositions ShapeName.RING count rnd textPts
      = ring count rnd from rfl, ring,
      flatMap_length_triple _ _ (fun i => by rfl), List.length_range]
  case HEART =>
    rw [show makeShapePositions ShapeName.HEART count rnd textPts
      = heart count rnd from rfl, heart,
      flatMap_length_triple _ _ (fun i => by rfl), List.length_range]
  case TEXT =>
    rw [show makeShapePositions ShapeName.TEXT count rnd textPts
      = textShape count textPts from rfl, textShape,
      flatMap_length_triple _ _ (fun i => by rfl), List.length_range]

/-! ## The assembled pipeline (main.ts): GestureEngine.process over the six
registered plugins followed by InteractionCore.update -/

/-- Event recognizer: does the event write `stillness` or `shakeEnergy`? -/
def touchesStillState (e : InteractionEvent) : Bool :=
  isIdleEv e || isShakeEnergyEv e

/-- Combined cross-tick state of the assembled pipeline: the two stateful
plugins and the aggregator (the other four plugins are stateless). -/
structure PipelineState where
  label : LabelState
  shake : ShakeState
  core : InteractionState

/-- Initial pipeline state at startup. -/
def initPipeline : PipelineState :=
  { label := initLabelState, shake := initShakeState, core := initialState }

/-- One tick of the assembled pipeline: the six registered plugins run in the
engine's scheduling order (before: GestureLabel priority 0; main: DualHand 5,
SingleHandMove 10, PinchSpread 20, ShakeScatter 30; after: ShapeByGesture 10),
their events are concatenated in that order, and the batch is aggregated by
`InteractionCore.update`. -/
def pipelineTick (st : PipelineState) (frames : List HandFrame)
    (ctx : GestureContext) : PipelineState :=
  let lab := labelUpdate st.label frames
  let shk := shakeUpdate st.shake frames ctx
  let events :=
    lab.1 ++
    (dualHandUpdate frames ctx ++ singleHandMoveUpdate frames ctx ++
      pinchSpreadUpdate frames ctx ++ shk.1) ++
    gestureShapeUpdate frames ctx
  { label := lab.2, shake := shk.2, core := coreUpdate st.core events }

/-- Run of the assembled pipeline from startup. -/
def runPipeline (ticks : List (List HandFrame × GestureContext)) : PipelineState :=
  ticks.foldl (fun st p => pipelineTick st p.1 p.2) initPipeline

theorem applyEvent_stillness_of_not_touches (s : InteractionState)
    (e : InteractionEvent) (h : touchesStillState e = false) :
    (applyEvent s e).stillness = s.stillness := by
  cases e <;> simp_all [applyEvent, touchesStillState, isIdleEv, isShakeEnergyEv]

theorem applyEvent_shakeEnergy_of_not_touches (s : InteractionState)
    (e : InteractionEvent) (h : touchesStillState e = false) :
    (applyEvent s e).shakeEnergy = s.shakeEnergy := by
  cases e <;> simp_all [applyEvent, touchesStillState, isIdleEv, isShakeEnergyEv]

theorem coreUpdate_still_of_not_touches (s : InteractionState)
    (events : List InteractionEvent)
    (h : ∀ e ∈ events, touchesStillState e = false) :
    (coreUpdate s events).stillness = s.stillness ∧
    (coreUpdate s events).shakeEnergy = s.shakeEnergy := by
  unfold coreUpdate
  set s0 : InteractionState := { s with scatter := false, converge := false } with hs0
  have hstill : s0.stillness = s.stillness := rfl
  have hshake : s0.shakeEnergy = s.shakeEnergy := rfl
  clear_value s0
  clear hs0
  induction events generalizing s0 with
  | nil => exact ⟨hstill, hshake⟩
  | cons e es ih =>
      have he := h e (List.mem_cons_self e es)
      refine ih (fun x hx => h x (List.mem_cons_of_mem e hx)) (applyEvent s0 e) ?_ ?_
      · rw [applyEvent_stillness_of_not_touches s0 e he, hstill]
      · rw [applyEvent_shakeEnergy_of_not_touches s0 e he, hshake]

theorem labelUpdate_not_touches (s : LabelState) (frames : List HandFrame) :
    ∀ e ∈ (labelUpdate s frames).1, touchesStillState e = false := by
  intro e he
  simp only [labelUpdate] at he
  split_ifs at he <;>
    simp_all [touchesStillState, isIdleEv, isShakeEnergyEv]

theorem dualHandUpdate_not_touches (frames : List HandFrame) (ctx : GestureContext) :
    ∀ e ∈ dualHandUpdate frames ctx, touchesStillState e = false := by
  intro e he
  rcases frames with _ | ⟨a, _ | ⟨b, t⟩⟩ <;>
    simp only [dualHandUpdate] at he
  · simp at he
  · simp at he
  · split_ifs at he <;>
      simp only [List.cons_append, List.nil_append, List.append_nil] at he <;>
      fin_cases he <;>
      simp [touchesStillState, isIdleEv, isShakeEnergyEv]

theorem singleHandMoveUpdate_not_touches (frames : List HandFrame)
    (ctx : GestureContext) :
    ∀ e ∈ singleHandMoveUpdate frames ctx, touchesStillState e = false := by
  intro e he
  rcases frames with _ | ⟨a, _ | ⟨b, t⟩⟩ <;>
    simp only [singleHandMoveUpdate] at he <;>
    fin_cases he <;>
    simp [touchesStillState, isIdleEv, isShakeEnergyEv]

theorem pinchSpreadUpdate_not_touches (frames : List HandFrame)
    (ctx : GestureContext) :
    ∀ e ∈ pinchSpreadUpdate frames ctx, touchesStillState e = false := by
  intro e he
  rcases frames with _ | ⟨a, _ | ⟨b, t⟩⟩ <;>
    simp only [pinchSpreadUpdate] at he <;>
    fin_cases he <;>
    simp [touchesStillState, isIdleEv, isShakeEnergyEv]

theorem shakeUpdate_not_touches (s : ShakeState) (frames : List HandFrame)
    (ctx : GestureContext) :
    ∀ e ∈ (shakeUpdate s frames ctx).1, touchesStillState e = false := by
  intro e he
  rcases frames with _ | ⟨a, _ | ⟨b, t⟩⟩ <;>
    simp only [shakeUpdate] at he
  · simp at he
  · split_ifs at he <;>
      fin_cases he <;>
      simp [touchesStillState, isIdleEv, isShakeEnergyEv]
  · simp at he

theorem gestureShapeUpdate_not_touches (frames : List HandFrame)
    (ctx : GestureContext) :
    ∀ e ∈ gestureShapeUpdate frames ctx, touchesStillState e = false := by
  intro e he
  rcases frames with _ | ⟨a, _ | ⟨b, t⟩⟩ <;>
    simp only [gestureShapeUpdate] at he
  · simp at he
  · split_ifs at he <;>
      fin_cases he <;>
      simp [touchesStillState, isIdleEv, isShakeEnergyEv]
  · simp at he

theorem pipelineTick_still (st : PipelineState) (frames : List HandFrame)
    (ctx : GestureContext) :
    (pipelineTick st frames ctx).core.stillness = st.core.stillness ∧
    (pipelineTick st frames ctx).core.shakeEnergy = st.core.shakeEnergy := by
  have hall : ∀ e ∈
      (labelUpdate st.label frames).1 ++
      (dualHandUpdate frames ctx ++ singleHandMoveUpdate frames ctx ++
        pinchSpreadUpdate frames ctx ++ (shakeUpdate st.shake frames ctx).1) ++
      gestureShapeUpdate frames ctx, touchesStillState e = false := by
    intro e he
    simp only [List.mem_append] at he
    rcases he with ((h | (((h | h) | h) | h)) | h)
    · exact labelUpdate_not_touches st.label frames e h
    · exact dualHandUpdate_not_touches frames ctx e h
    · exact singleHandMoveUpdate_not_touches frames ctx e h
    · exact pinchSpreadUpdate_not_touches frames ctx e h
    · exact shakeUpdate_not_touches st.shake frames ctx e h
    · exact gestureShapeUpdate_not_touches frames ctx e h
  exact coreUpdate_still_of_not_touches st.core _ hall

/-- C10: no registered gesture plugin emits IDLE or SHAKE_ENERGY, so over any
run of the assembled pipeline (process over the six plugins, then update)
`state.stillness` keeps its initial value 1 and `state.shakeEnergy` keeps its
initial value 0: the aggregator's IDLE and SHAKE_ENERGY branches are dead in
the assembled pipeline. -/
theorem pipeline_stillness_shakeEnergy
    (ticks : List (List HandFrame × GestureContext)) :
    (runPipeline ticks).core.stillness = 1 ∧
    (runPipeline ticks).core.shakeEnergy = 0 := by
  unfold runPipeline
  have hinit : initPipeline.core.stillness = 1 ∧ initPipeline.core.shakeEnergy = 0 :=
    ⟨rfl, rfl⟩
  set st0 := initPipeline with hst0
  clear_value st0
  clear hst0
  induction ticks generalizing st0 with
  | nil => exact hinit
  | cons p ps ih =>
      refine ih (pipelineTick st0 p.1 p.2) ?_
      have hp := pipelineTick_still st0 p.1 p.2
      exact ⟨hp.1.trans hinit.1, hp.2.trans hinit.2⟩

end HPE
